import Mathlib

/-
  Verification development for the triage-bot agent orchestration engine.

  The definitions below are a shallow embedding of the Rust source:
  * `call_openai_api` mirrors `OpenAiLlmClient::call_openai_api`
    (src/service/llm/openai.rs): timeout/retry loop with a retry counter.
  * `parseSearchTerms`, `search_channel_messages` mirror
    `SurrealDbClient::search_channel_messages` (src/service/db.rs): splitting a
    comma separated term string, trimming, filtering empties, early return of
    `"[]"` when no terms remain, and the semantics of the generated ranked
    full-text query (OR-combined match filter, summed per-term scores,
    `ORDER BY score DESC`, `LIMIT 50`).
  * `update_channel_directive` / `add_channel_context` mirror the SurrealDB
    operations of the same names: record-field replacement vs. relation append.
  * `parse_openai_response` mirrors the response parser of
    src/service/llm/openai.rs; serde decoding steps are oracle parameters.
  * `compile_contexts`, `response_callback`, `handle_chat_event` mirror
    src/interaction/chat_event.rs, with external collaborators (chat, storage,
    model, MCP transports) supplied as oracle outcomes and the observable side
    effects recorded in an explicit trace.
-/

namespace TriageBot

/-! ### Retrying call wrapper (`OpenAiLlmClient::call_openai_api`) -/

/-- Outcome of a single attempt of the wrapped model call: the inner future
succeeds, fails with a transport/API error, or the 120s timeout elapses. -/
inductive AttemptOutcome
  | success (response : String)
  | apiError (err : String)
  | timeout
deriving DecidableEq

/-- Whether an attempt outcome is the success case. -/
def AttemptOutcome.isSuccess : AttemptOutcome → Bool
  | .success _ => true
  | _ => false

deriving instance DecidableEq for Except

/-- Result of the retry loop: how many calls were attempted in total, and the
final value returned (response or error string). -/
structure ApiCallResult where
  calls : Nat
  result : Except String String
deriving DecidableEq

/-- The `MAX_RETRIES` constant of `call_openai_api`. -/
def MAX_RETRIES : Nat := 3

/-- Loop body of `call_openai_api`: `retries` starts at 0; each iteration makes
one call (attempt number `retries + 1`); on failure or timeout the loop returns
an error if `retries >= MAX_RETRIES` and otherwise increments `retries`,
sleeps, and retries.  The attempt oracle `a` gives the outcome of the call made
when the counter equals a given value. -/
def call_openai_api_go (a : Nat → AttemptOutcome) (maxRetries : Nat) (retries : Nat) : ApiCallResult :=
  match a retries with
  | .success response => ⟨retries + 1, .ok response⟩
  | .apiError err =>
    if h : maxRetries ≤ retries then
      ⟨retries + 1, .error ("OpenAI API call failed after " ++ toString maxRetries ++ " retries: " ++ err)⟩
    else
      call_openai_api_go a maxRetries (retries + 1)
  | .timeout =>
    if h : maxRetries ≤ retries then
      ⟨retries + 1, .error ("OpenAI API call timed out after " ++ toString maxRetries ++ " attempts")⟩
    else
      call_openai_api_go a maxRetries (retries + 1)
termination_by maxRetries + 1 - retries
decreasing_by
  all_goals omega

/-- `call_openai_api` with a configurable retry budget (the source fixes it to
`MAX_RETRIES = 3`): run the loop starting from `retries = 0`. -/
def call_openai_api (a : Nat → AttemptOutcome) (maxRetries : Nat) : ApiCallResult :=
  call_openai_api_go a maxRetries 0

/-- The error message of a failed retry loop, determined by the outcome of its
final attempt: both shapes of the source wrap the retry budget `maxRetries`,
not the attempt count. -/
def lastFailureMessage (maxRetries : Nat) : AttemptOutcome → String
  | .apiError err => "OpenAI API call failed after " ++ toString maxRetries ++ " retries: " ++ err
  | _ => "OpenAI API call timed out after " ++ toString maxRetries ++ " attempts"

/-! ### Search-term parsing (`SurrealDbClient::search_channel_messages`) -/

/-- Rust `str::split(',')`: the pieces of a character list between commas
(empty pieces included). -/
def splitComma : List Char → List (List Char)
  | [] => [[]]
  | c :: rest =>
    if c = ',' then [] :: splitComma rest
    else
      match splitComma rest with
      | [] => [[c]]
      | piece :: pieces => (c :: piece) :: pieces

/-- Rust `str::trim`: drop leading and trailing whitespace characters. -/
def trimChars (l : List Char) : List Char :=
  ((l.dropWhile Char.isWhitespace).reverse.dropWhile Char.isWhitespace).reverse

/-- The term list computed by `search_channel_messages`:
`search_terms.split(',').map(|s| s.trim().to_string()).filter(|s| !s.is_empty())`. -/
def parseSearchTerms (s : String) : List (List Char) :=
  ((splitComma s.toList).map trimChars).filter (fun t => !t.isEmpty)

/-! ### Ranked full-text search -/

/-- A stored channel message; only its searchable `raw.text` field is
observable to the search query. -/
structure StoredMessage where
  raw_text : String
deriving DecidableEq

/-- Semantics of the query string generated by `search_channel_messages`
(executed by the storage engine, modelled here from the generated query text):
a message of the channel store is eligible when it matches at least one term
(`raw.text @k@ term` clauses joined with `OR`), its score is the sum of the
per-term match scores (`search::score(k)` joined with `+`), and the result is
ordered by descending score and capped by `LIMIT 50`.  The per-term match
predicate and score function of the engine's BM25 index are parameters. -/
def searchQuery (matchesTerm : StoredMessage → List Char → Bool)
    (termScore : StoredMessage → List Char → Nat)
    (store : List StoredMessage) (terms : List (List Char)) : List (StoredMessage × Nat) :=
  let eligible := store.filter (fun m => terms.any (fun t => matchesTerm m t))
  let scored := eligible.map (fun m => (m, (terms.map (fun t => termScore m t)).sum))
  (List.insertionSort (fun x y => y.2 ≤ x.2) scored).take 50

/-- Observable outcome of one `search_channel_messages` call: whether the
full-text query was actually issued to the storage engine, the ranked rows it
returned, and the string handed back to the caller. -/
structure SearchOutcome where
  dbQueryIssued : Bool
  ranked : List (StoredMessage × Nat)
  result : String
deriving DecidableEq

/-- `SurrealDbClient::search_channel_messages`: parse the comma-separated term
string; if no terms remain, return the literal `"[]"` without querying;
otherwise issue the ranked full-text query and serialize the rows
(serialization by `serde_json::to_string` is the oracle `toJson`). -/
def search_channel_messages (matchesTerm : StoredMessage → List Char → Bool)
    (termScore : StoredMessage → List Char → Nat)
    (toJson : List (StoredMessage × Nat) → String)
    (store : List StoredMessage) (search_terms : String) : SearchOutcome :=
  let terms := parseSearchTerms search_terms
  if terms.isEmpty then
    ⟨false, [], "[]"⟩
  else
    let ranked := searchQuery matchesTerm termScore store terms
    ⟨true, ranked, toJson ranked⟩

/-- Observable outcome of the message-search task of `compile_contexts`:
whether `db.search_channel_messages` was invoked at all, whether the underlying
full-text query was issued, and the message-search portion of the compiled
context. -/
structure MessageSearchReport where
  searchCallIssued : Bool
  dbQueryIssued : Bool
  result : String
deriving DecidableEq

/-- The body of the message-search task in `compile_contexts`
(src/interaction/chat_event.rs), after the helper agent produced the
comma-separated keyword string `search_terms`:
`if !search_terms.is_empty() { db.search_channel_messages(..) } else { "No relevant messages found." }`. -/
def compileMessageSearch (matchesTerm : StoredMessage → List Char → Bool)
    (termScore : StoredMessage → List Char → Nat)
    (toJson : List (StoredMessage × Nat) → String)
    (store : List StoredMessage) (search_terms : String) : MessageSearchReport :=
  if !search_terms.isEmpty then
    let o := search_channel_messages matchesTerm termScore toJson store search_terms
    ⟨true, o.dbQueryIssued, o.result⟩
  else
    ⟨false, false, "No relevant messages found."⟩

/-! ### Channel directive and context storage -/

/-- Mirror of `SurrealLlmContext` (the record id is elided): the raw triggering
message (its JSON payload carried opaquely as text) and free-text notes. -/
structure LlmCtx where
  user_message : String
  your_notes : String
deriving DecidableEq

/-- The storage state touched by the directive/context operations: each channel
record has exactly one `channel_directive` field (keyed association list), and
`context` records linked by `has_context` edges accrete in creation order. -/
structure DbState where
  directives : List (String × LlmCtx)
  contexts : List (String × LlmCtx)
deriving DecidableEq

/-- Replace the `channel_directive` field of the channel record with the given
id (creating the record when absent), leaving other records untouched. -/
def upsertDirective : List (String × LlmCtx) → String → LlmCtx → List (String × LlmCtx)
  | [], ch, d => [(ch, d)]
  | p :: rest, ch, d => if p.1 = ch then (ch, d) :: rest else p :: upsertDirective rest ch d

/-- `SurrealDbClient::update_channel_directive`: `UPDATE channel:<id> MERGE
{ channel_directive: directive }` — wholesale replacement of the single
directive field. -/
def update_channel_directive (s : DbState) (channel_id : String) (directive : LlmCtx) : DbState :=
  { s with directives := upsertDirective s.directives channel_id directive }

/-- `SurrealDbClient::add_channel_context`: `CREATE context` plus `RELATE
channel->has_context->context` — appends one context record for the channel. -/
def add_channel_context (s : DbState) (channel_id : String) (context : LlmCtx) : DbState :=
  { s with contexts := s.contexts ++ [(channel_id, context)] }

/-- The directive entries currently stored for a channel. -/
def directivesFor (s : DbState) (channel_id : String) : List LlmCtx :=
  (s.directives.filter (fun p => p.1 = channel_id)).map Prod.snd

/-- The context entries currently stored for a channel, in creation order. -/
def contextsFor (s : DbState) (channel_id : String) : List LlmCtx :=
  (s.contexts.filter (fun p => p.1 = channel_id)).map Prod.snd

/-! ### Model output and response parsing (`parse_openai_response`) -/

/-- A JSON value, carried opaquely: either raw serialized text, or the
`function_call_output` object the action dispatcher feeds back to the model. -/
inductive JsonValue
  | raw (s : String)
  | functionCallOutput (call_id : String) (output : String)
deriving DecidableEq

/-- Mirror of `AssistantClassification` (src/base/types.rs). -/
inductive AssistantClassification
  | Bug
  | Feature
  | Question
  | Incident
  | Other
deriving DecidableEq

/-- Mirror of `AssistantResponse` (src/base/types.rs): the closed set of typed
actions a model turn can produce. -/
inductive AssistantResponse
  | NoAction
  | ReplyToThread (thread_ts : String) (classification : AssistantClassification) (message : String)
  | UpdateChannelDirective (call_id : String) (message : String)
  | UpdateContext (call_id : String) (message : String)
  | McpTool (call_id : String) (name : String) (arguments : JsonValue)
deriving DecidableEq

/-- Mirror of `TextOrResponse` (src/base/types.rs). -/
inductive TextOrResponse
  | Text (t : String)
  | AssistantResponse (r : AssistantResponse)
deriving DecidableEq

/-- An `OutputText` content part: text plus its annotation list (only the
annotation count is observed, for logging). -/
structure OutputText where
  text : String
  annotations : List String
deriving DecidableEq

/-- A content part of a message output item. -/
inductive Content
  | outputText (t : OutputText)
  | refusal (reason : String)
deriving DecidableEq

/-- A function-call output item: provider-assigned call id, function name and
raw JSON argument string. -/
structure FunctionCallItem where
  call_id : String
  name : String
  arguments : String
deriving DecidableEq

/-- An output item of a model response (`OutputContent` of the provider SDK):
a message, a function call, a web-search call record, or any other kind. -/
inductive OutputContent
  | message (content : List Content)
  | functionCall (f : FunctionCallItem)
  | webSearchCall
  | otherOutput
deriving DecidableEq

/-- One content part of a message item: a refusal is a hard error; output text
is decoded as a structured `AssistantResponse` when `serde_json::from_str`
succeeds (the oracle `decodeAssistant`) and kept as plain text otherwise. -/
def parseContentItem (decodeAssistant : String → Option AssistantResponse) :
    Content → Except String TextOrResponse
  | .outputText t =>
    match decodeAssistant t.text with
    | some r => .ok (.AssistantResponse r)
    | none => .ok (.Text t.text)
  | .refusal reason => .error ("Request refused: " ++ reason)

/-- The actions contributed by one output item.  A function call is matched
against the two reserved built-in names; `decodeToolArgs` is the serde decoding
of `ToolContextFunctionCallArgs` (yielding the `message` field), whose failure
propagates as an error.  Message items decode each content part; web-search
call records and unrecognized output kinds are logged and skipped.

Modelled from the spec: the registered-tool fallthrough branch.  The variant it
produces (`AssistantResponse::McpTool`, src/base/types.rs) and its dispatcher
(src/interaction/chat_event.rs) are in the source, but the parser branch that
matches a function-call name against the tool registry (`registry`) and decodes
it into the MCP-tool action — name, call id and JSON-decoded arguments
(`decodeJson`) — is taken from the spec's description of the Response Parser;
a name in neither the built-ins nor the registry is a hard parse error, as in
the source's catch-all arm. -/
def parseOutputItem (registry : List String)
    (decodeAssistant : String → Option AssistantResponse)
    (decodeToolArgs : String → Option String)
    (decodeJson : String → Option JsonValue) :
    OutputContent → Except String (List TextOrResponse)
  | .message content => content.mapM (parseContentItem decodeAssistant)
  | .functionCall f =>
    if f.name = "set_channel_directive" then
      match decodeToolArgs f.arguments with
      | some message => .ok [.AssistantResponse (.UpdateChannelDirective f.call_id message)]
      | none => .error "invalid function call arguments"
    else if f.name = "update_channel_context" then
      match decodeToolArgs f.arguments with
      | some message => .ok [.AssistantResponse (.UpdateContext f.call_id message)]
      | none => .error "invalid function call arguments"
    else if f.name ∈ registry then
      match decodeJson f.arguments with
      | some v => .ok [.AssistantResponse (.McpTool f.call_id f.name v)]
      | none => .error "invalid function call arguments"
    else
      .error "Unknown function call."
  | .webSearchCall => .ok []
  | .otherOutput => .ok []

/-- `parse_openai_response` (src/service/llm/openai.rs): walk the output items
in order, accumulating actions, returning the first hard error if any. -/
def parse_openai_response (registry : List String)
    (decodeAssistant : String → Option AssistantResponse)
    (decodeToolArgs : String → Option String)
    (decodeJson : String → Option JsonValue) :
    List OutputContent → Except String (List TextOrResponse)
  | [] => .ok []
  | o :: rest =>
    match parseOutputItem registry decodeAssistant decodeToolArgs decodeJson o with
    | .error e => .error e
    | .ok xs =>
      match parse_openai_response registry decodeAssistant decodeToolArgs decodeJson rest with
      | .error e => .error e
      | .ok ys => .ok (xs ++ ys)

/-! ### Tool-permission gate (`get_assistant_agent_response`) -/

/-- A tool definition as offered to the model.  Only the name is observable to
the gating property; the JSON-schema parameters and long description strings of
the source are elided. -/
structure ToolDefinition where
  name : String
deriving DecidableEq

/-- `get_openai_assistant_tools`: the full built-in tool set. -/
def get_openai_assistant_tools : List ToolDefinition :=
  [⟨"set_channel_directive"⟩, ⟨"update_channel_context"⟩]

/-- `get_openai_restricted_tools`: the empty tool set. -/
def get_openai_restricted_tools : List ToolDefinition := []

/-- Rust `str::contains`: `needle` occurs as a contiguous substring of `hay`. -/
def containsSubstring (hay needle : List Char) : Bool :=
  match hay with
  | [] => needle.isEmpty
  | c :: rest => needle.isPrefixOf (c :: rest) || containsSubstring rest needle

/-- Substring containment on strings. -/
def strContains (hay needle : String) : Bool :=
  containsSubstring hay.toList needle.toList

/-- The tool-permission gate of `get_assistant_agent_response`:
`if context.user_message.contains("remember") || context.user_message.contains("directive")`
then the full built-in set is offered, otherwise the restricted (empty) set. -/
def assistantToolsFor (user_message : String) : List ToolDefinition :=
  if strContains user_message "remember" || strContains user_message "directive" then
    get_openai_assistant_tools
  else
    get_openai_restricted_tools

/-! ### Chat-event handling pipeline (src/interaction/chat_event.rs) -/

/-- An observable side effect of handling one chat event. -/
inductive Effect
  | assistantCalled
  | sentMessage (channel_id : String) (thread_ts : String) (message : String)
  | reactedToMessage (emoji : String)
  | updatedChannelDirective (message : String)
  | addedChannelContext (message : String)
  | calledMcpTool (name : String)
  | loggedError (e : String)
deriving DecidableEq

/-- Outcomes of every external collaborator call made while handling one chat
event (chat transport, storage, helper agents, assistant model, MCP tools), so
the pipeline is a pure function of the inbound event's environment. -/
structure ChatEventOracles where
  /-- `db.get_or_create_channel`, yielding the channel's directive. -/
  getOrCreateChannelRes : Except String LlmCtx
  /-- `db.get_channel_context`. -/
  getChannelContextRes : Except String String
  /-- `chat.get_thread_context`. -/
  getThreadContextRes : Except String String
  /-- `serde_json::to_string` of the channel directive. -/
  toJsonLlmCtx : LlmCtx → String
  /-- The web-search helper agent call (through the retry wrapper). -/
  webSearchRes : Except String String
  /-- The message-search helper agent call (through the retry wrapper). -/
  messageSearchAgentRes : Except String String
  /-- Per-term match predicate of the storage full-text index. -/
  matchesTerm : StoredMessage → List Char → Bool
  /-- Per-term match score of the storage full-text index. -/
  termScore : StoredMessage → List Char → Nat
  /-- `serde_json::to_string` of the ranked search rows. -/
  toJson : List (StoredMessage × Nat) → String
  /-- The channel's stored message history. -/
  storedMessages : List StoredMessage
  /-- Assistant-model call outcomes, consumed in order by the driver loop. -/
  apiScript : List (Except String (List OutputContent))
  /-- Serde decoding of output text as a structured `AssistantResponse`. -/
  decodeAssistant : String → Option AssistantResponse
  /-- Serde decoding of built-in tool-call arguments (the `message` field). -/
  decodeToolArgs : String → Option String
  /-- Serde decoding of registered-tool arguments as a JSON value. -/
  decodeJson : String → Option JsonValue
  /-- Names of the registered MCP tools. -/
  registry : List String
  /-- `db.update_channel_directive` outcome. -/
  updateDirectiveRes : Except String Unit
  /-- `db.add_channel_context` outcome. -/
  addContextRes : Except String Unit
  /-- `mcp.call_tool` outcome, by tool name and arguments. -/
  mcpCallRes : String → JsonValue → Except String String
  /-- `chat.send_message` outcome. -/
  sendRes : Except String Unit
  /-- The bot's user id. -/
  bot_user_id : String
  /-- The channel id of the inbound event. -/
  channel_id : String
  /-- The thread timestamp of the inbound event. -/
  thread_ts : String
  /-- The serialized triggering event (`serde_json::to_string(&event)`). -/
  user_message : String

/-- Mirror of `AssistantContext` (src/base/types.rs): the ephemeral per-request
aggregate handed to the assistant driver (the offered tool list is elided). -/
structure AssistantContextM where
  user_message : String
  bot_user_id : String
  channel_id : String
  thread_ts : String
  channel_directive : String
  channel_context : String
  thread_context : String
  web_search_context : String
  message_search_context : String
deriving DecidableEq

/-- The message-search task of `compile_contexts`: run the message-search
helper agent; on success, query the store unless the keyword string is empty
(then the fixed sentinel is used). -/
def messageSearchTask (o : ChatEventOracles) : Except String String :=
  match o.messageSearchAgentRes with
  | .error e => .error e
  | .ok search_terms =>
    .ok (compileMessageSearch o.matchesTerm o.termScore o.toJson o.storedMessages search_terms).result

/-- `compile_contexts`: launch the web-search and message-search helper tasks,
join both, and fail the whole compile when either fails (the web task's result
is unwrapped first, as in the source); on success assemble the composite
context. -/
def compile_contexts (o : ChatEventOracles)
    (channel_directive channel_context thread_context : String) :
    Except String AssistantContextM :=
  match o.webSearchRes with
  | .error e => .error e
  | .ok web =>
    match messageSearchTask o with
    | .error e => .error e
    | .ok msgs =>
      .ok ⟨o.user_message, o.bot_user_id, o.channel_id, o.thread_ts,
        channel_directive, channel_context, thread_context, web, msgs⟩

/-- The reaction emoji chosen for each classification. -/
def emojiFor : AssistantClassification → String
  | .Question => "question"
  | .Feature => "bulb"
  | .Bug => "bug"
  | .Incident => "warning"
  | .Other => "grey_question"

/-- Dispatch of a single parsed action by the response callback: the side
effects it performs and either the `function_call_output` payloads to feed back
to the model or the error that aborts the callback.  `ReplyToThread` first
issues the reaction (its result is discarded by the source's `let _ =`), then
the send; the three mutating actions consult their collaborator oracle. -/
def responseStep (o : ChatEventOracles) :
    AssistantResponse → List Effect × Except String (List JsonValue)
  | .NoAction => ([], .ok [])
  | .UpdateChannelDirective call_id message =>
    match o.updateDirectiveRes with
    | .error e => ([], .error e)
    | .ok _ =>
      ([.updatedChannelDirective message],
        .ok [.functionCallOutput call_id "Channel directive updated successfully."])
  | .UpdateContext call_id message =>
    match o.addContextRes with
    | .error e => ([], .error e)
    | .ok _ =>
      ([.addedChannelContext message],
        .ok [.functionCallOutput call_id "Context updated successfully."])
  | .McpTool call_id name arguments =>
    match o.mcpCallRes name arguments with
    | .error e => ([], .error e)
    | .ok out => ([.calledMcpTool name], .ok [.functionCallOutput call_id out])
  | .ReplyToThread thread_ts classification message =>
    match o.sendRes with
    | .error e => ([.reactedToMessage (emojiFor classification)], .error e)
    | .ok _ =>
      ([.reactedToMessage (emojiFor classification),
        .sentMessage o.channel_id thread_ts message], .ok [])

/-- The response callback of `handle_chat_event_internal`: dispatch the parsed
actions in order, accumulating effects and feedback payloads; the first
failing dispatch aborts the callback with that error. -/
def response_callback (o : ChatEventOracles) :
    List AssistantResponse → List Effect × Except String (List JsonValue)
  | [] => ([], .ok [])
  | r :: rest =>
    match responseStep o r with
    | (effs, .error e) => (effs, .error e)
    | (effs, .ok outs) =>
      match response_callback o rest with
      | (effs2, .error e) => (effs ++ effs2, .error e)
      | (effs2, .ok outs2) => (effs ++ effs2, .ok (outs ++ outs2))

/-- Keep only the structured actions of a parsed response (plain text items are
ignored by the driver). -/
def filterAssistant (l : List TextOrResponse) : List AssistantResponse :=
  l.filterMap fun
    | .AssistantResponse r => some r
    | .Text _ => none

/-- The request/response loop of `get_assistant_agent_response`: send the
request (one scripted outcome per model call; a call for which no outcome is
scripted is a transport failure), parse, hand the actions to the callback, and
re-issue a chained request while the callback produces feedback payloads. -/
def assistantDriver (o : ChatEventOracles) :
    List (Except String (List OutputContent)) → List Effect × Except String Unit
  | [] => ([], .error "OpenAI API call failed")
  | apiRes :: rest =>
    match apiRes with
    | .error e => ([.assistantCalled], .error e)
    | .ok outputs =>
      match parse_openai_response o.registry o.decodeAssistant o.decodeToolArgs o.decodeJson outputs with
      | .error e => ([.assistantCalled], .error e)
      | .ok items =>
        match response_callback o (filterAssistant items) with
        | (effs, .error e) => (.assistantCalled :: effs, .error e)
        | (effs, .ok msgs) =>
          if msgs.isEmpty then
            (.assistantCalled :: effs, .ok ())
          else
            match assistantDriver o rest with
            | (effs2, res) => (.assistantCalled :: (effs ++ effs2), res)

/-- `handle_chat_event_internal`: fetch channel, context and thread history,
compile the composite context (fail-fast), then run the assistant driver. -/
def handle_chat_event_internal (o : ChatEventOracles) : List Effect × Except String Unit :=
  match o.getOrCreateChannelRes with
  | .error e => ([], .error e)
  | .ok channel_directive =>
    match o.getChannelContextRes with
    | .error e => ([], .error e)
    | .ok channel_context =>
      match o.getThreadContextRes with
      | .error e => ([], .error e)
      | .ok thread_context =>
        match compile_contexts o (o.toJsonLlmCtx channel_directive) channel_context thread_context with
        | .error e => ([], .error e)
        | .ok _ctx => assistantDriver o o.apiScript

/-- `handle_chat_event`: the spawned task runs the internal handler and, on
error, only logs the failure (the result is otherwise discarded). -/
def handle_chat_event (o : ChatEventOracles) : List Effect :=
  match handle_chat_event_internal o with
  | (effs, .error e) => effs ++ [.loggedError e]
  | (effs, .ok _) => effs

/-! ### Concrete oracle environments -/

/-- A baseline oracle environment for instantiating the pipeline theorems:
every collaborator succeeds trivially, the model script is empty, no tools are
registered. -/
def baseOracle : ChatEventOracles where
  getOrCreateChannelRes := .ok ⟨"", ""⟩
  getChannelContextRes := .ok ""
  getThreadContextRes := .ok ""
  toJsonLlmCtx := fun _ => ""
  webSearchRes := .ok ""
  messageSearchAgentRes := .ok ""
  matchesTerm := fun _ _ => false
  termScore := fun _ _ => 0
  toJson := fun _ => "[]"
  storedMessages := []
  apiScript := []
  decodeAssistant := fun _ => none
  decodeToolArgs := fun _ => none
  decodeJson := fun _ => none
  registry := []
  updateDirectiveRes := .ok ()
  addContextRes := .ok ()
  mcpCallRes := fun _ _ => .error "no such tool"
  sendRes := .ok ()
  bot_user_id := "U0"
  channel_id := "C1"
  thread_ts := "1.0"
  user_message := "hello"

/-- An oracle environment whose single model turn yields a thread reply
followed by a call to a registered MCP tool that fails. -/
def replyThenFailOracle : ChatEventOracles :=
  { baseOracle with
      apiScript := [.ok [.message [.outputText ⟨"REPLY", []⟩],
        .functionCall ⟨"id1", "mytool", "args"⟩]]
      decodeAssistant := fun s =>
        if s = "REPLY" then some (.ReplyToThread "1.0" .Question "hi") else none
      decodeJson := fun s => some (.raw s)
      registry := ["mytool"]
      mcpCallRes := fun _ _ => .error "tool failed" }

/-- An oracle environment whose web-search helper task fails. -/
def webFailOracle : ChatEventOracles :=
  { baseOracle with webSearchRes := .error "web search failed" }

/-! ## Theorems -/

/-! ### C1: retry budget of the call wrapper -/

/-- When every attempt fails (error or timeout), the loop started at counter
`r ≤ maxRetries` makes `maxRetries + 1 - r` further calls, ending at a total
call count of `maxRetries + 1`, and returns the error determined by the final
attempt's outcome, whose text wraps the retry budget `maxRetries`. -/
theorem call_openai_api_go_all_fail (a : Nat → AttemptOutcome) (maxRetries : Nat)
    (H : ∀ k, (a k).isSuccess = false) :
    ∀ d r, maxRetries - r ≤ d → r ≤ maxRetries →
      (call_openai_api_go a maxRetries r).calls = maxRetries + 1 ∧
      (call_openai_api_go a maxRetries r).result =
        .error (lastFailureMessage maxRetries (a maxRetries)) := by
  intro d
  induction d with
  | zero =>
    intro r hd hr
    have hrm : r = maxRetries := by omega
    subst hrm
    rw [call_openai_api_go]
    cases ha : a r with
    | success resp => have hs := H r; rw [ha] at hs; simp [AttemptOutcome.isSuccess] at hs
    | apiError e =>
      simp [lastFailureMessage, dif_pos (le_refl r)]
    | timeout =>
      simp [lastFailureMessage, dif_pos (le_refl r)]
  | succ n ih =>
    intro r hd hr
    by_cases hrm : r = maxRetries
    · subst hrm
      rw [call_openai_api_go]
      cases ha : a r with
      | success resp => have hs := H r; rw [ha] at hs; simp [AttemptOutcome.isSuccess] at hs
      | apiError e =>
        simp [lastFailureMessage, dif_pos (le_refl r)]
      | timeout =>
        simp [lastFailureMessage, dif_pos (le_refl r)]
    · have hlt : r < maxRetries := lt_of_le_of_ne hr hrm
      rw [call_openai_api_go]
      cases ha : a r with
      | success resp => have hs := H r; rw [ha] at hs; simp [AttemptOutcome.isSuccess] at hs
      | apiError e =>
        have hnle : ¬ maxRetries ≤ r := by omega
        simp only [hnle, dite_false]
        exact ih (r + 1) (by omega) (by omega)
      | timeout =>
        have hnle : ¬ maxRetries ≤ r := by omega
        simp only [hnle, dite_false]
        exact ih (r + 1) (by omega) (by omega)

/-- When attempt `m` is the first success at or after the starting counter `r`
and `m ≤ maxRetries`, the loop returns that response with a total of `m + 1`
calls. -/
theorem call_openai_api_go_first_success (a : Nat → AttemptOutcome) (maxRetries : Nat)
    (resp : String) :
    ∀ d r m, m - r ≤ d → a m = .success resp →
      (∀ k, r ≤ k → k < m → (a k).isSuccess = false) →
      r ≤ m → m ≤ maxRetries →
      call_openai_api_go a maxRetries r = ⟨m + 1, .ok resp⟩ := by
  intro d
  induction d with
  | zero =>
    intro r m hd hm _ hrm _
    have : r = m := by omega
    subst this
    rw [call_openai_api_go, hm]
  | succ n ih =>
    intro r m hd hm H hrm hmax
    by_cases hrm2 : r = m
    · subst hrm2
      rw [call_openai_api_go, hm]
    · have hlt : r < m := lt_of_le_of_ne hrm hrm2
      have hfail := H r le_rfl hlt
      rw [call_openai_api_go]
      cases ha : a r with
      | success s => rw [ha] at hfail; simp [AttemptOutcome.isSuccess] at hfail
      | apiError e =>
        have hnle : ¬ maxRetries ≤ r := by omega
        simp only [hnle, dite_false]
        exact ih (r + 1) m (by omega) hm (fun k hk1 hk2 => H k (by omega) hk2) (by omega) hmax
      | timeout =>
        have hnle : ¬ maxRetries ≤ r := by omega
        simp only [hnle, dite_false]
        exact ih (r + 1) m (by omega) hm (fun k hk1 hk2 => H k (by omega) hk2) (by omega) hmax

/-- C1 counterexample: with the source's `MAX_RETRIES = 3`, a client that
always times out is attempted 4 times (one initial call plus three retries),
not 3 as the claim states, before the error is returned. -/
theorem c1_counterexample :
    (call_openai_api (fun _ => .timeout) MAX_RETRIES).calls = 4 ∧ (4 : Nat) ≠ 3 ∧
    (call_openai_api (fun _ => .timeout) MAX_RETRIES).result.isOk = false := by
  have h := call_openai_api_go_all_fail (fun _ => .timeout) MAX_RETRIES (fun _ => rfl) 3 0
    (by decide) (by decide)
  refine ⟨h.1, by decide, ?_⟩
  show (call_openai_api_go (fun _ => .timeout) MAX_RETRIES 0).result.isOk = false
  rw [h.2]
  rfl

/-- C1 (amended): with the default budget `MAX_RETRIES = 3`, a client whose
every attempt fails or times out is called exactly 4 times (1 initial call + 3
retries) and then the error determined by the final attempt's outcome is
returned — its text wraps the retry budget `MAX_RETRIES = 3` (either
`"... failed after 3 retries: _"` or `"... timed out after 3 attempts"`), not
the attempt count 4; if the first success is attempt `n + 1` with `n ≤ 3`,
exactly `n + 1` calls are made and the response is returned — in particular
success on the 2nd attempt records exactly 2 calls. -/
theorem c1_retry_budget (a : Nat → AttemptOutcome) (n : Nat) (resp : String) :
    ((∀ k, (a k).isSuccess = false) →
      (call_openai_api a MAX_RETRIES).calls = MAX_RETRIES + 1 ∧
      (call_openai_api a MAX_RETRIES).result =
        .error (lastFailureMessage MAX_RETRIES (a MAX_RETRIES)))
    ∧ ((∀ k, k < n → (a k).isSuccess = false) → a n = .success resp → n ≤ MAX_RETRIES →
      call_openai_api a MAX_RETRIES = ⟨n + 1, .ok resp⟩) := by
  constructor
  · intro H
    exact call_openai_api_go_all_fail a MAX_RETRIES H MAX_RETRIES 0 (by omega) (by omega)
  · intro H hm hn
    exact call_openai_api_go_first_success a MAX_RETRIES resp n 0 n (by omega) hm
      (fun k _ hk => H k hk) (Nat.zero_le n) hn

/-- Witness for C1: an always-timing-out client makes 4 calls and errors with
a text wrapping the retry budget; a client succeeding on the 2nd attempt makes
exactly 2 calls. -/
theorem c1_retry_budget_witness :
    ((call_openai_api (fun _ => .timeout) MAX_RETRIES).calls = MAX_RETRIES + 1 ∧
      (call_openai_api (fun _ => .timeout) MAX_RETRIES).result =
        .error "OpenAI API call timed out after 3 attempts") ∧
    call_openai_api (fun k => if k = 1 then .success "resp" else .timeout) MAX_RETRIES =
      ⟨2, .ok "resp"⟩ := by
  constructor
  · exact (c1_retry_budget (fun _ => .timeout) 0 "resp").1 (fun _ => rfl)
  · exact (c1_retry_budget (fun k => if k = 1 then .success "resp" else .timeout) 1 "resp").2
      (by
        intro k hk
        have hk0 : k = 0 := by omega
        subst hk0
        rfl) rfl (by decide)

/-! ### C2: empty search terms short-circuit -/

/-- Every piece produced by splitting a comma/whitespace-only character list at
commas consists of whitespace characters only. -/
theorem splitComma_pieces_ws (l : List Char)
    (H : ∀ c ∈ l, c = ',' ∨ c.isWhitespace = true) :
    ∀ p ∈ splitComma l, ∀ c ∈ p, c.isWhitespace = true := by
  induction l with
  | nil =>
    intro p hp c hc
    simp [splitComma] at hp
    subst hp
    simp at hc
  | cons x rest ih =>
    have hrest : ∀ c ∈ rest, c = ',' ∨ c.isWhitespace = true :=
      fun c hc => H c (List.mem_cons_of_mem x hc)
    intro p hp c hc
    by_cases hx : x = ','
    · rw [splitComma, if_pos hx] at hp
      rcases List.mem_cons.mp hp with h | h
      · subst h; simp at hc
      · exact ih hrest p h c hc
    · rw [splitComma, if_neg hx] at hp
      have hxws : x.isWhitespace = true := by
        rcases H x (List.mem_cons_self x rest) with h | h
        · exact absurd h hx
        · exact h
      cases hsp : splitComma rest with
      | nil =>
        rw [hsp] at hp
        simp at hp
        subst hp
        simp at hc
        subst hc
        exact hxws
      | cons piece pieces =>
        rw [hsp] at hp
        rcases List.mem_cons.mp hp with h | h
        · subst h
          rcases List.mem_cons.mp hc with h | h
          · subst h; exact hxws
          · exact ih hrest piece (by rw [hsp]; exact List.mem_cons_self piece pieces) c h
        · exact ih hrest p (by rw [hsp]; exact List.mem_cons_of_mem piece h) c hc

/-- Trimming a whitespace-only character list yields the empty list. -/
theorem trimChars_ws_eq_nil (l : List Char) (H : ∀ c ∈ l, c.isWhitespace = true) :
    trimChars l = [] := by
  unfold trimChars
  rw [List.dropWhile_eq_nil_iff.mpr H]
  simp

/-- A string of only commas and whitespace parses to an empty term list. -/
theorem parseSearchTerms_ws_eq_nil (s : String)
    (H : ∀ c ∈ s.toList, c = ',' ∨ c.isWhitespace = true) :
    parseSearchTerms s = [] := by
  unfold parseSearchTerms
  rw [List.filter_eq_nil_iff]
  intro t ht
  rcases List.mem_map.mp ht with ⟨p, hp, hpt⟩
  have : t = [] := by
    rw [← hpt]
    exact trimChars_ws_eq_nil p (splitComma_pieces_ws s.toList H p hp)
  subst this
  simp

/-- C2 counterexample: for the comma-only message-search output `","`, a
storage search call is issued and the message-search portion of the compiled
context is `"[]"`, not the sentinel text. -/
theorem c2_counterexample :
    (compileMessageSearch (fun _ _ => false) (fun _ _ => 0) (fun _ => "") [] ",").searchCallIssued
      = true ∧
    (compileMessageSearch (fun _ _ => false) (fun _ _ => 0) (fun _ => "") [] ",").result = "[]" ∧
    "[]" ≠ "No relevant messages found." := by
  refine ⟨rfl, rfl, by decide⟩

/-- C2 (amended): if the message-search helper output is the empty string, no
storage search call is issued and the message-search portion of the compiled
context is the fixed sentinel; if it is a non-empty string of only commas and
whitespace, the storage collaborator's search IS invoked, but it returns the
literal `"[]"` without issuing the underlying full-text query. -/
theorem c2_empty_search_terms (matchesTerm : StoredMessage → List Char → Bool)
    (termScore : StoredMessage → List Char → Nat)
    (toJson : List (StoredMessage × Nat) → String)
    (store : List StoredMessage) (s : String) :
    (s = "" →
      compileMessageSearch matchesTerm termScore toJson store s =
        ⟨false, false, "No relevant messages found."⟩)
    ∧ (s ≠ "" → (∀ c ∈ s.toList, c = ',' ∨ c.isWhitespace = true) →
      compileMessageSearch matchesTerm termScore toJson store s = ⟨true, false, "[]"⟩) := by
  constructor
  · intro hs
    subst hs
    rfl
  · intro hs H
    have hne : s.isEmpty = false := by
      cases hemp : s.isEmpty
      · rfl
      · exact absurd ((String.isEmpty_iff s).mp hemp) hs
    have hterms : parseSearchTerms s = [] := parseSearchTerms_ws_eq_nil s H
    unfold compileMessageSearch
    rw [hne]
    unfold search_channel_messages
    rw [hterms]
    rfl

/-- Witness for C2: instantiated at the empty output and at the comma/space
output `" , "`. -/
theorem c2_empty_search_terms_witness :
    compileMessageSearch (fun _ _ => false) (fun _ _ => 0) (fun _ => "X") [] "" =
      ⟨false, false, "No relevant messages found."⟩ ∧
    compileMessageSearch (fun _ _ => false) (fun _ _ => 0) (fun _ => "X") [] " , " =
      ⟨true, false, "[]"⟩ := by
  constructor
  · exact (c2_empty_search_terms (fun _ _ => false) (fun _ _ => 0) (fun _ => "X") [] "").1 rfl
  · exact (c2_empty_search_terms (fun _ _ => false) (fun _ _ => 0) (fun _ => "X") [] " , ").2
      (by decide) (by decide)

/-! ### C9: ranked full-text search -/

instance : IsTotal (StoredMessage × Nat) (fun x y => y.2 ≤ x.2) :=
  ⟨fun a b => Nat.le_total b.2 a.2⟩

instance : IsTrans (StoredMessage × Nat) (fun x y => y.2 ≤ x.2) :=
  ⟨fun _ _ _ hab hbc => le_trans hbc hab⟩

/-- The generated query returns at most `LIMIT 50` rows. -/
theorem searchQuery_length_le (matchesTerm : StoredMessage → List Char → Bool)
    (termScore : StoredMessage → List Char → Nat)
    (store : List StoredMessage) (terms : List (List Char)) :
    (searchQuery matchesTerm termScore store terms).length ≤ 50 := by
  unfold searchQuery
  rw [List.length_take]
  exact min_le_left _ _

/-- The generated query returns rows in descending score order. -/
theorem searchQuery_sorted (matchesTerm : StoredMessage → List Char → Bool)
    (termScore : StoredMessage → List Char → Nat)
    (store : List StoredMessage) (terms : List (List Char)) :
    List.Sorted (fun x y => y.2 ≤ x.2) (searchQuery matchesTerm termScore store terms) := by
  unfold searchQuery
  exact List.Pairwise.sublist (List.take_sublist _ _) (List.sorted_insertionSort _ _)

/-- Every returned row matches at least one term, and its score is the sum of
its per-term scores. -/
theorem searchQuery_mem (matchesTerm : StoredMessage → List Char → Bool)
    (termScore : StoredMessage → List Char → Nat)
    (store : List StoredMessage) (terms : List (List Char)) :
    ∀ p ∈ searchQuery matchesTerm termScore store terms,
      (∃ t ∈ terms, matchesTerm p.1 t = true) ∧
      p.2 = (terms.map (fun t => termScore p.1 t)).sum := by
  intro p hp
  unfold searchQuery at hp
  have hp2 : p ∈ List.insertionSort (fun x y => y.2 ≤ x.2)
      ((store.filter (fun m => terms.any (fun t => matchesTerm m t))).map
        (fun m => (m, (terms.map (fun t => termScore m t)).sum))) :=
    (List.take_sublist _ _).mem hp
  have hp3 := (List.perm_insertionSort (fun x y : StoredMessage × Nat => y.2 ≤ x.2) _).mem_iff.mp hp2
  rcases List.mem_map.mp hp3 with ⟨m, hm, hmp⟩
  rcases List.mem_filter.mp hm with ⟨_, hmatch⟩
  subst hmp
  exact ⟨List.any_eq_true.mp hmatch, rfl⟩

/-- C9: for every non-empty search-terms string, the storage message search
returns at most 50 rows, ordered by descending score, each matching at least
one parsed term (OR-combined) with score equal to the sum of its per-term
scores. -/
theorem c9_ranked_search (matchesTerm : StoredMessage → List Char → Bool)
    (termScore : StoredMessage → List Char → Nat)
    (toJson : List (StoredMessage × Nat) → String)
    (store : List StoredMessage) (s : String) (h : s ≠ "") :
    (search_channel_messages matchesTerm termScore toJson store s).ranked.length ≤ 50 ∧
    List.Sorted (fun x y => y.2 ≤ x.2)
      (search_channel_messages matchesTerm termScore toJson store s).ranked ∧
    ∀ p ∈ (search_channel_messages matchesTerm termScore toJson store s).ranked,
      (∃ t ∈ parseSearchTerms s, matchesTerm p.1 t = true) ∧
      p.2 = ((parseSearchTerms s).map (fun t => termScore p.1 t)).sum := by
  unfold search_channel_messages
  cases hterms : (parseSearchTerms s).isEmpty
  · simp only [hterms, Bool.false_eq_true, if_false]
    exact ⟨searchQuery_length_le _ _ _ _, searchQuery_sorted _ _ _ _, searchQuery_mem _ _ _ _⟩
  · simp only [hterms, if_true]
    refine ⟨by simp, by simp, ?_⟩
    intro p hp
    simp at hp
/-! ### C7: directive replace vs. context append -/

/-- A keyed association list with no entry for `ch` filters to nothing at
`ch`. -/
theorem filter_eq_nil_of_key_not_mem (l : List (String × LlmCtx)) (ch : String)
    (h : ch ∉ l.map Prod.fst) :
    l.filter (fun p => p.1 = ch) = [] := by
  rw [List.filter_eq_nil_iff]
  intro p hp
  simp only [decide_eq_true_eq]
  intro hpch
  exact h (List.mem_map.mpr ⟨p, hp, hpch⟩)

/-- Upserting a directive twice for the same channel leaves exactly one entry
for that channel, holding the second value, provided channel keys are unique. -/
theorem upsertDirective_twice (l : List (String × LlmCtx)) (ch : String) (A B : LlmCtx)
    (hnd : (l.map Prod.fst).Nodup) :
    (upsertDirective (upsertDirective l ch A) ch B).filter (fun p => p.1 = ch) = [(ch, B)] := by
  induction l with
  | nil =>
    simp [upsertDirective, List.filter]
  | cons p rest ih =>
    rw [List.map_cons, List.nodup_cons] at hnd
    by_cases hp : p.1 = ch
    · rw [upsertDirective, if_pos hp]
      rw [upsertDirective, if_pos rfl]
      rw [List.filter_cons_of_pos (by simp)]
      rw [filter_eq_nil_of_key_not_mem rest ch (hp ▸ hnd.1)]
    · rw [upsertDirective, if_neg hp]
      rw [upsertDirective, if_neg hp]
      rw [List.filter_cons_of_neg (by simpa using hp)]
      exact ih hnd.2

/-- C7: setting the directive twice with notes `A` then `B` leaves exactly one
directive for the channel, equal to `B`; appending context twice with `A` then
`B` leaves exactly the two entries `A` then `B` (given the channel had none and
channel records are uniquely keyed). -/
theorem c7_directive_replace_context_append (s : DbState) (ch : String) (A B : LlmCtx)
    (hnd : (s.directives.map Prod.fst).Nodup)
    (hempty : contextsFor s ch = []) :
    directivesFor (update_channel_directive (update_channel_directive s ch A) ch B) ch = [B] ∧
    contextsFor (add_channel_context (add_channel_context s ch A) ch B) ch = [A, B] := by
  constructor
  · unfold directivesFor update_channel_directive
    simp only
    rw [upsertDirective_twice s.directives ch A B hnd]
    rfl
  · unfold contextsFor add_channel_context
    simp only
    have hnil : s.contexts.filter (fun p => p.1 = ch) = [] := by
      unfold contextsFor at hempty
      exact List.map_eq_nil_iff.mp hempty
    rw [List.append_assoc, List.filter_append, hnil]
    simp [List.filter]

/-- Witness for C7: instantiated at the empty storage state. -/
theorem c7_directive_replace_context_append_witness :
    directivesFor
      (update_channel_directive (update_channel_directive ⟨[], []⟩ "C1" ⟨"mA", "A"⟩) "C1"
        ⟨"mB", "B"⟩) "C1" = [⟨"mB", "B"⟩] ∧
    contextsFor
      (add_channel_context (add_channel_context ⟨[], []⟩ "C1" ⟨"mA", "A"⟩) "C1"
        ⟨"mB", "B"⟩) "C1" = [⟨"mA", "A"⟩, ⟨"mB", "B"⟩] :=
  c7_directive_replace_context_append ⟨[], []⟩ "C1" ⟨"mA", "A"⟩ ⟨"mB", "B"⟩
    (by simp) (by rfl)

/-! ### C3, C8, C10: response parsing -/

/-- Parsing a concatenation of output-item lists concatenates the parsed
actions when both halves parse. -/
theorem parse_openai_response_append_ok (registry : List String)
    (dA : String → Option AssistantResponse) (dTA : String → Option String)
    (dJ : String → Option JsonValue) (l1 l2 : List OutputContent)
    (xs ys : List TextOrResponse)
    (h1 : parse_openai_response registry dA dTA dJ l1 = .ok xs)
    (h2 : parse_openai_response registry dA dTA dJ l2 = .ok ys) :
    parse_openai_response registry dA dTA dJ (l1 ++ l2) = .ok (xs ++ ys) := by
  induction l1 generalizing xs with
  | nil =>
    rw [parse_openai_response] at h1
    cases h1
    simpa using h2
  | cons o rest ih =>
    rw [parse_openai_response] at h1
    rw [List.cons_append, parse_openai_response]
    cases hitem : parseOutputItem registry dA dTA dJ o with
    | error e => rw [hitem] at h1; simp at h1
    | ok zs =>
      rw [hitem] at h1
      cases hrest : parse_openai_response registry dA dTA dJ rest with
      | error e => rw [hrest] at h1; simp at h1
      | ok ws =>
        rw [hrest] at h1
        simp at h1
        subst h1
        simp only [hitem, ih ws hrest, h2]
        rw [List.append_assoc]

/-- If the tail of a concatenation fails to parse, the whole parse fails. -/
theorem parse_openai_response_append_isOk (registry : List String)
    (dA : String → Option AssistantResponse) (dTA : String → Option String)
    (dJ : String → Option JsonValue) (l1 l2 : List OutputContent)
    (h2 : (parse_openai_response registry dA dTA dJ l2).isOk = false) :
    (parse_openai_response registry dA dTA dJ (l1 ++ l2)).isOk = false := by
  induction l1 with
  | nil => simpa using h2
  | cons o rest ih =>
    rw [List.cons_append, parse_openai_response]
    cases hitem : parseOutputItem registry dA dTA dJ o with
    | error e => simp [hitem, Except.isOk, Except.toBool]
    | ok zs =>
      cases hrest : parse_openai_response registry dA dTA dJ (rest ++ l2) with
      | error e => simp [hitem, hrest, Except.isOk, Except.toBool]
      | ok ws => rw [hrest] at ih; simp [Except.isOk, Except.toBool] at ih

/-- C3 (spec-modelled registered-tool branch): a function-call item whose name
is neither reserved built-in but is a registered tool is decoded into the
MCP-tool action carrying its call id, tool name and decoded arguments, in
place, without failing the response. -/
theorem c3_registered_tool_invocation (registry : List String)
    (dA : String → Option AssistantResponse) (dTA : String → Option String)
    (dJ : String → Option JsonValue) (f : FunctionCallItem) (v : JsonValue)
    (pre post : List OutputContent) (xs ys : List TextOrResponse)
    (h1 : f.name ≠ "set_channel_directive") (h2 : f.name ≠ "update_channel_context")
    (hreg : f.name ∈ registry) (hargs : dJ f.arguments = some v)
    (hpre : parse_openai_response registry dA dTA dJ pre = .ok xs)
    (hpost : parse_openai_response registry dA dTA dJ post = .ok ys) :
    parse_openai_response registry dA dTA dJ (pre ++ .functionCall f :: post) =
      .ok (xs ++ .AssistantResponse (.McpTool f.call_id f.name v) :: ys) := by
  have hitem : parseOutputItem registry dA dTA dJ (.functionCall f) =
      .ok [.AssistantResponse (.McpTool f.call_id f.name v)] := by
    simp only [parseOutputItem]
    rw [if_neg h1, if_neg h2, if_pos hreg, hargs]
  have hcons : parse_openai_response registry dA dTA dJ (.functionCall f :: post) =
      .ok (.AssistantResponse (.McpTool f.call_id f.name v) :: ys) := by
    rw [parse_openai_response]
    simp only [hitem, hpost, List.singleton_append]
  exact parse_openai_response_append_ok registry dA dTA dJ pre _ xs _ hpre hcons

/-- Witness for C3: a single registered-tool call item in an otherwise empty
response parses to exactly the MCP-tool action. -/
theorem c3_registered_tool_invocation_witness :
    parse_openai_response ["mytool"] (fun _ => none) (fun _ => none)
        (fun s => some (.raw s)) ([] ++ .functionCall ⟨"id1", "mytool", "args"⟩ :: []) =
      .ok ([] ++ .AssistantResponse (.McpTool "id1" "mytool" (.raw "args")) :: []) :=
  c3_registered_tool_invocation ["mytool"] (fun _ => none) (fun _ => none)
    (fun s => some (.raw s)) ⟨"id1", "mytool", "args"⟩ (.raw "args") [] [] [] []
    (by decide) (by decide) (by decide) rfl rfl rfl

/-- C8: a function-call item whose name is neither a reserved built-in nor a
registered tool makes the whole response fail to parse, wherever it occurs. -/
theorem c8_unknown_tool_rejected (registry : List String)
    (dA : String → Option AssistantResponse) (dTA : String → Option String)
    (dJ : String → Option JsonValue) (f : FunctionCallItem)
    (pre post : List OutputContent)
    (h1 : f.name ≠ "set_channel_directive") (h2 : f.name ≠ "update_channel_context")
    (hreg : f.name ∉ registry) :
    (parse_openai_response registry dA dTA dJ (pre ++ .functionCall f :: post)).isOk
      = false := by
  have hitem : parseOutputItem registry dA dTA dJ (.functionCall f) =
      .error "Unknown function call." := by
    simp only [parseOutputItem]
    rw [if_neg h1, if_neg h2, if_neg hreg]
  apply parse_openai_response_append_isOk
  rw [parse_openai_response]
  simp [hitem, Except.isOk, Except.toBool]

/-- Witness for C8: a lone unknown function call fails the parse. -/
theorem c8_unknown_tool_rejected_witness :
    (parse_openai_response [] (fun _ => none) (fun _ => none) (fun _ => none)
      ([] ++ .functionCall ⟨"id1", "nosuch", "args"⟩ :: [])).isOk = false :=
  c8_unknown_tool_rejected [] (fun _ => none) (fun _ => none) (fun _ => none)
    ⟨"id1", "nosuch", "args"⟩ [] [] (by decide) (by decide) (by decide)

/-- C10: an output item that is neither a message nor a function call (a
web-search call record or any other output kind) is skipped: it contributes no
action and no error, so parsing with the item equals parsing without it. -/
theorem c10_non_action_items_skipped (registry : List String)
    (dA : String → Option AssistantResponse) (dTA : String → Option String)
    (dJ : String → Option JsonValue) (o : OutputContent)
    (pre post : List OutputContent)
    (h : o = .webSearchCall ∨ o = .otherOutput) :
    parse_openai_response registry dA dTA dJ (pre ++ o :: post) =
      parse_openai_response registry dA dTA dJ (pre ++ post) := by
  have hitem : parseOutputItem registry dA dTA dJ o = .ok [] := by
    rcases h with h | h <;> subst h <;> rfl
  induction pre with
  | nil =>
    rw [List.nil_append, List.nil_append, parse_openai_response]
    simp only [hitem]
    cases hpost : parse_openai_response registry dA dTA dJ post <;> simp [hpost]
  | cons x rest ih =>
    rw [List.cons_append, List.cons_append, parse_openai_response, parse_openai_response, ih]

/-- Witness for C10: a web-search call record between two skipped items leaves
the parse result unchanged. -/
theorem c10_non_action_items_skipped_witness :
    parse_openai_response [] (fun _ => none) (fun _ => none) (fun _ => none)
        ([.otherOutput] ++ .webSearchCall :: []) =
      parse_openai_response [] (fun _ => none) (fun _ => none) (fun _ => none)
        ([.otherOutput] ++ []) :=
  c10_non_action_items_skipped [] (fun _ => none) (fun _ => none) (fun _ => none)
    .webSearchCall [.otherOutput] [] (Or.inl rfl)

/-- Witness for C9: a one-term search over a one-message store. -/
theorem c9_ranked_search_witness :
    (search_channel_messages (fun _ _ => true) (fun _ _ => 1) (fun _ => "J")
      [⟨"hello world"⟩] "hello").ranked.length ≤ 50 ∧
    List.Sorted (fun x y => y.2 ≤ x.2)
      (search_channel_messages (fun _ _ => true) (fun _ _ => 1) (fun _ => "J")
        [⟨"hello world"⟩] "hello").ranked ∧
    ∀ p ∈ (search_channel_messages (fun _ _ => true) (fun _ _ => 1) (fun _ => "J")
        [⟨"hello world"⟩] "hello").ranked,
      (∃ t ∈ parseSearchTerms "hello", (fun (_ : StoredMessage) (_ : List Char) => true) p.1 t
        = true) ∧
      p.2 = ((parseSearchTerms "hello").map
        (fun t => (fun (_ : StoredMessage) (_ : List Char) => 1) p.1 t)).sum :=
  c9_ranked_search (fun _ _ => true) (fun _ _ => 1) (fun _ => "J") [⟨"hello world"⟩] "hello"
    (by decide)

/-! ### C6: tool gating -/

/-- C6: the two built-in state-mutating tools are offered exactly when the
triggering message text contains the substring `"remember"` or the substring
`"directive"`; otherwise both are withheld. -/
theorem c6_tool_gating (m : String) :
    ((strContains m "remember" || strContains m "directive") = true →
      ToolDefinition.mk "set_channel_directive" ∈ assistantToolsFor m ∧
      ToolDefinition.mk "update_channel_context" ∈ assistantToolsFor m)
    ∧ ((strContains m "remember" || strContains m "directive") = false →
      ToolDefinition.mk "set_channel_directive" ∉ assistantToolsFor m ∧
      ToolDefinition.mk "update_channel_context" ∉ assistantToolsFor m) := by
  constructor
  · intro h
    simp [assistantToolsFor, h, get_openai_assistant_tools]
  · intro h
    simp [assistantToolsFor, h, get_openai_restricted_tools]

/-- Witness for C6: a message with the trigger keyword gets both built-ins; a
message without either keyword gets neither. -/
theorem c6_tool_gating_witness :
    (ToolDefinition.mk "set_channel_directive" ∈ assistantToolsFor "please remember the on-call" ∧
      ToolDefinition.mk "update_channel_context" ∈ assistantToolsFor "please remember the on-call")
    ∧ (ToolDefinition.mk "set_channel_directive" ∉ assistantToolsFor "what is the weather" ∧
      ToolDefinition.mk "update_channel_context" ∉ assistantToolsFor "what is the weather") :=
  ⟨(c6_tool_gating "please remember the on-call").1 (by decide),
    (c6_tool_gating "what is the weather").2 (by decide)⟩

/-! ### C5: fail-fast compile -/

/-- C5: if either helper-agent task fails, context compilation returns an
error and the assistant model is never called for the event — the handling
trace records zero assistant calls. -/
theorem c5_fail_fast_compile (o : ChatEventOracles) (d c t : String)
    (h : o.webSearchRes.isOk = false ∨ o.messageSearchAgentRes.isOk = false) :
    (compile_contexts o d c t).isOk = false ∧
    (handle_chat_event_internal o).1.count Effect.assistantCalled = 0 := by
  have hcomp : ∀ d2 c2 t2 : String, (compile_contexts o d2 c2 t2).isOk = false := by
    intro d2 c2 t2
    unfold compile_contexts
    cases hweb : o.webSearchRes with
    | error e => rfl
    | ok web =>
      rcases h with h | h
      · rw [hweb] at h; simp [Except.isOk, Except.toBool] at h
      · unfold messageSearchTask
        cases hmsg : o.messageSearchAgentRes with
        | error e => rfl
        | ok terms => rw [hmsg] at h; simp [Except.isOk, Except.toBool] at h
  refine ⟨hcomp d c t, ?_⟩
  unfold handle_chat_event_internal
  cases o.getOrCreateChannelRes with
  | error e => rfl
  | ok dir =>
    cases o.getChannelContextRes with
    | error e => rfl
    | ok cc =>
      cases o.getThreadContextRes with
      | error e => rfl
      | ok tc =>
        have := hcomp (o.toJsonLlmCtx dir) cc tc
        cases hc : compile_contexts o (o.toJsonLlmCtx dir) cc tc with
        | error e => simp only [hc]; rfl
        | ok ctx => rw [hc] at this; simp [Except.isOk, Except.toBool] at this

/-- Witness for C5: a failing web-search helper yields a failed compile and an
assistant-call-free trace. -/
theorem c5_fail_fast_compile_witness :
    (compile_contexts webFailOracle "d" "c" "t").isOk = false ∧
    (handle_chat_event_internal webFailOracle).1.count Effect.assistantCalled = 0 :=
  c5_fail_fast_compile webFailOracle "d" "c" "t" (Or.inl rfl)

/-! ### C4: no message on unrecovered error -/

/-- C4 counterexample: in `replyThenFailOracle` the handling of the event ends
in an unrecovered error (the MCP tool fails after the reply was dispatched),
yet a send-message call was issued on the event's behalf before the failure. -/
theorem c4_counterexample :
    (handle_chat_event_internal replyThenFailOracle).2 = .error "tool failed" ∧
    Effect.sentMessage "C1" "1.0" "hi" ∈ handle_chat_event replyThenFailOracle := by
  constructor
  · rfl
  · decide

/-- C4 (amended): when handling ends in an unrecovered error, the error path
itself only logs — the spawned handler appends exactly the log entry to the
effects of the internal run — and the dispatch loop stops at the failing
action, so no effect (in particular no send) is produced after the point of
failure; send-message calls dispatched before the failing action, however, may
already have occurred. -/
theorem c4_error_only_logged (o : ChatEventOracles) :
    (∀ effs e, handle_chat_event_internal o = (effs, .error e) →
      handle_chat_event o = effs ++ [.loggedError e])
    ∧ (∀ (l1 : List AssistantResponse) (r : AssistantResponse) (l2 : List AssistantResponse)
        (effs1 : List Effect) (outs1 : List JsonValue) (effsr : List Effect) (e : String),
        response_callback o l1 = (effs1, .ok outs1) →
        responseStep o r = (effsr, .error e) →
        response_callback o (l1 ++ r :: l2) = (effs1 ++ effsr, .error e)) := by
  constructor
  · intro effs e h
    unfold handle_chat_event
    rw [h]
  · intro l1
    induction l1 with
    | nil =>
      intro r l2 effs1 outs1 effsr e hcb hstep
      rw [response_callback] at hcb
      cases hcb
      rw [List.nil_append, response_callback, hstep]
      simp
    | cons x rest ih =>
      intro r l2 effs1 outs1 effsr e hcb hstep
      rw [response_callback] at hcb
      cases hx : responseStep o x with
      | mk ex resx =>
        rw [hx] at hcb
        cases resx with
        | error e2 => simp at hcb
        | ok outsx =>
          cases hrest : response_callback o rest with
          | mk e1 res1 =>
            rw [hrest] at hcb
            cases res1 with
            | error e2 => simp at hcb
            | ok o1 =>
              simp at hcb
              rw [List.cons_append, response_callback, hx]
              rw [ih r l2 e1 o1 effsr e hrest hstep]
              rw [← hcb.1, List.append_assoc]

/-- Witness for C4: the error path of `replyThenFailOracle` appends exactly
the log entry, and a callback run aborts at the failing MCP action with no
effects from actions after it. -/
theorem c4_error_only_logged_witness :
    handle_chat_event replyThenFailOracle =
      [Effect.assistantCalled, Effect.reactedToMessage "question",
        Effect.sentMessage "C1" "1.0" "hi"] ++ [Effect.loggedError "tool failed"] ∧
    response_callback baseOracle
        ([AssistantResponse.NoAction] ++ .McpTool "id9" "t" (.raw "a") :: [.NoAction]) =
      ([] ++ [], .error "no such tool") := by
  constructor
  · exact (c4_error_only_logged replyThenFailOracle).1
      [Effect.assistantCalled, Effect.reactedToMessage "question",
        Effect.sentMessage "C1" "1.0" "hi"] "tool failed" rfl
  · exact (c4_error_only_logged baseOracle).2 [AssistantResponse.NoAction]
      (.McpTool "id9" "t" (.raw "a")) [.NoAction] [] [] [] "no such tool" rfl rfl

end TriageBot
